import Mathlib

/-!
Shallow embedding of the yt-dlp batch harvester (src/core/cookie_manager.py,
src/core/yt_dlp_fetcher.py, src/utils/utils.py, src/main_yt_dlp.py) and
verification of its specification claims.

Python strings are modelled as `String` / `List Char`; Python's substring
operator `pat in s` is modelled by `hasSubstr`; dictionaries with string keys
are modelled as association lists; `None`-able values as `Option`; wall-clock
timestamps as `Int` seconds.  External effects (the yt_dlp extraction library,
the HuggingFace remote store, the filesystem) are modelled as explicit oracle
parameters.  Wall-clock timing diagnostics (the `timings_ytdlp` record) are
not modelled: no claim mentions them.
-/

namespace YtDlp

/-! ## String helpers (Python `in`, `str.lower`, `re.search(r"(\d{3})")`) -/

/-- `listStartsWith pat s` : `pat` is a prefix of `s` (Python slice compare). -/
def listStartsWith : List Char → List Char → Bool
  | [], _ => true
  | _ :: _, [] => false
  | p :: ps, c :: cs => p == c && listStartsWith ps cs

/-- Python's substring test `pat in s` on char lists. -/
def hasSubstr (pat : List Char) : List Char → Bool
  | [] => listStartsWith pat []
  | c :: rest => listStartsWith pat (c :: rest) || hasSubstr pat rest

/-- Python `str(error).lower()` : lower-cased character list of a string. -/
def lowerChars (s : String) : List Char := s.toList.map Char.toLower

/-- Numeric value of an ASCII digit character. -/
def digitVal (c : Char) : Nat := c.toNat - 48

/-- Python `re.search(r"(\d{3})", s)` : the leftmost run of three consecutive
digits in `s`, as a number (`none` if no such run exists). -/
def firstThreeDigit : List Char → Option Nat
  | a :: b :: c :: t =>
    if a.isDigit && b.isDigit && c.isDigit then
      some (digitVal a * 100 + digitVal b * 10 + digitVal c)
    else
      firstThreeDigit (b :: c :: t)
  | _ => none

/-! ## CookieRotationManager (src/core/cookie_manager.py)

The directory scan in `_load_cookie_files` is filesystem input; the loaded,
immutable file list and the cursor are the state. -/

structure CookieRotationManager where
  cookie_files : List String
  current_index : Nat
deriving DecidableEq

/-- `get_current_cookie` (cookie_manager.py lines 52-62). -/
def get_current_cookie (m : CookieRotationManager) : Option String :=
  if m.cookie_files.isEmpty then none
  else m.cookie_files[m.current_index]?

/-- `rotate_to_next` (cookie_manager.py lines 64-83): advance the cursor
cyclically and return the new current cookie, or `none` when the list is
empty (state unchanged). -/
def rotate_to_next (m : CookieRotationManager) :
    Option String × CookieRotationManager :=
  if m.cookie_files.isEmpty then (none, m)
  else
    let idx := (m.current_index + 1) % m.cookie_files.length
    (m.cookie_files[idx]?, { m with current_index := idx })

/-- The state transition performed by one `rotate_to_next` call. -/
def rotateState (m : CookieRotationManager) : CookieRotationManager :=
  (rotate_to_next m).2

/-- `block_indicators` (cookie_manager.py lines 99-112). -/
def blockIndicators : List (List Char) :=
  ["429", "403", "blocked", "rate limit", "too many requests",
   "unable to extract", "private video", "video unavailable",
   "sign in to confirm your age", "http error", "unable to download",
   "extractor error"].map String.toList

/-- The error-type family checked by `is_blocked_error`
(cookie_manager.py line 115). -/
def blockedErrorTypes : List String :=
  ["ExtractorError", "DownloadError", "UnsupportedError"]

/-- `is_blocked_error` (cookie_manager.py lines 85-127): keyword check gated
on the error's type name, then a check of the first 3-digit substring against
429/403/503. -/
def is_blocked_error (errType : String) (msg : String) : Bool :=
  let error_str := lowerChars msg
  if errType ∈ blockedErrorTypes ∧
      blockIndicators.any (fun ind => hasSubstr ind error_str) = true then
    true
  else
    match firstThreeDigit error_str with
    | some code => code == 429 || code == 403 || code == 503
    | none => false

/-! ## Helper lemmas -/

lemma listStartsWith_map (f : Char → Char) :
    ∀ pat s : List Char, listStartsWith pat s = true →
      listStartsWith (pat.map f) (s.map f) = true := by
  intro pat
  induction pat with
  | nil => intro s _; simp [listStartsWith]
  | cons p ps ih =>
    intro s h
    cases s with
    | nil => simp [listStartsWith] at h
    | cons c cs =>
      simp only [listStartsWith, Bool.and_eq_true, beq_iff_eq] at h
      simp only [List.map_cons, listStartsWith, Bool.and_eq_true, beq_iff_eq]
      exact ⟨by rw [h.1], ih cs h.2⟩

lemma hasSubstr_map (f : Char → Char) (pat : List Char) :
    ∀ s : List Char, hasSubstr pat s = true →
      hasSubstr (pat.map f) (s.map f) = true := by
  intro s
  induction s with
  | nil =>
    intro h
    simp only [hasSubstr] at h ⊢
    exact listStartsWith_map f pat [] h
  | cons c cs ih =>
    intro h
    simp only [hasSubstr, Bool.or_eq_true] at h ⊢
    rcases h with h | h
    · exact Or.inl (listStartsWith_map f pat (c :: cs) h)
    · exact Or.inr (ih h)

lemma cookieManager_eq_of_fields (a b : CookieRotationManager)
    (h1 : a.cookie_files = b.cookie_files)
    (h2 : a.current_index = b.current_index) : a = b := by
  cases a; cases b; simp_all

lemma rotateState_spec (m : CookieRotationManager)
    (h : m.cookie_files ≠ []) :
    (rotateState m).cookie_files = m.cookie_files ∧
    (rotateState m).current_index =
      (m.current_index + 1) % m.cookie_files.length := by
  simp [rotateState, rotate_to_next, List.isEmpty_iff, h]

lemma rotate_iter_spec (m : CookieRotationManager)
    (h : m.cookie_files ≠ []) (hi : m.current_index < m.cookie_files.length) :
    ∀ k : Nat,
      (rotateState^[k] m).cookie_files = m.cookie_files ∧
      (rotateState^[k] m).current_index =
        (m.current_index + k) % m.cookie_files.length := by
  intro k
  induction k with
  | zero =>
    have hlt := Nat.mod_eq_of_lt hi
    simp [Function.iterate_zero, hlt]
  | succ n ih =>
    rw [Function.iterate_succ_apply']
    have hne : (rotateState^[n] m).cookie_files ≠ [] := by
      rw [ih.1]; exact h
    have hs := rotateState_spec (rotateState^[n] m) hne
    refine ⟨by rw [hs.1, ih.1], ?_⟩
    rw [hs.2, ih.1, ih.2, Nat.mod_add_mod, Nat.add_assoc]

/-! ## Claim theorems: C9 and C1 -/

/-- C9: for a credential set of size N ≥ 1 and any in-range cursor, N calls
of `rotate_to_next` return the manager to its starting state (same current
credential), and a single call sends the cursor to (previous + 1) mod N. -/
theorem rotate_cyclic (m : CookieRotationManager) (N : Nat)
    (hN : m.cookie_files.length = N) (h1 : 1 ≤ N)
    (hi : m.current_index < N) :
    rotateState^[N] m = m ∧
    (rotateState m).current_index = (m.current_index + 1) % N ∧
    get_current_cookie (rotateState^[N] m) = get_current_cookie m := by
  have hne : m.cookie_files ≠ [] := by
    intro hnil
    rw [hnil] at hN
    simp at hN
    omega
  have hi2 : m.current_index < m.cookie_files.length := by rw [hN]; exact hi
  have hiter := rotate_iter_spec m hne hi2 N
  have hidx : (rotateState^[N] m).current_index = m.current_index := by
    rw [hiter.2, hN, Nat.add_mod_right, Nat.mod_eq_of_lt hi]
  have hstate : rotateState^[N] m = m :=
    cookieManager_eq_of_fields _ _ hiter.1 hidx
  have hone := (rotateState_spec m hne).2
  rw [hN] at hone
  exact ⟨hstate, hone, by rw [hstate]⟩

/-- Witness for C9 at a concrete 3-cookie manager starting at index 1. -/
theorem rotate_cyclic_witness :
    rotateState^[3] ⟨["a.txt", "b.txt", "c.txt"], 1⟩ =
      ⟨["a.txt", "b.txt", "c.txt"], 1⟩ ∧
    (rotateState ⟨["a.txt", "b.txt", "c.txt"], 1⟩).current_index =
      (1 + 1) % 3 ∧
    get_current_cookie (rotateState^[3] ⟨["a.txt", "b.txt", "c.txt"], 1⟩) =
      get_current_cookie ⟨["a.txt", "b.txt", "c.txt"], 1⟩ :=
  rotate_cyclic ⟨["a.txt", "b.txt", "c.txt"], 1⟩ 3 rfl (by decide) (by decide)

/-- C1 as stated is false: for an error whose type name is outside the
checked family, the keyword scan is skipped, and the numeric check uses only
the first 3-digit substring.  A message containing "429" after an earlier
"500" on a `ValueError` is not classified as blocking. -/
theorem blocked_429_counterexample :
    hasSubstr "429".toList "ValueError: failure 500 and 429".toList = true ∧
    is_blocked_error "ValueError" "ValueError: failure 500 and 429" = false := by
  decide

/-- C1 amended: for an error whose type name is `ExtractorError`,
`DownloadError` or `UnsupportedError`, a message containing the substring
"429" makes `is_blocked_error` return true regardless of surrounding text,
in particular even when another 3-digit substring occurs earlier. -/
theorem blocked_429_for_extractor_types (errType msg : String)
    (htype : errType ∈ blockedErrorTypes)
    (h429 : hasSubstr "429".toList msg.toList = true) :
    is_blocked_error errType msg = true := by
  have hlow : hasSubstr "429".toList (lowerChars msg) = true := by
    have hmap := hasSubstr_map Char.toLower "429".toList msg.toList h429
    have h429map : ("429".toList.map Char.toLower) = "429".toList := by decide
    rw [h429map] at hmap
    exact hmap
  have hany : blockIndicators.any
      (fun ind => hasSubstr ind (lowerChars msg)) = true := by
    apply List.any_eq_true.mpr
    exact ⟨"429".toList, by simp [blockIndicators], hlow⟩
  simp only [is_blocked_error]
  rw [if_pos ⟨htype, hany⟩]

/-- Witness for the amended C1: an `ExtractorError` whose message has "500"
before "429" is still classified as blocking. -/
theorem blocked_429_for_extractor_types_witness :
    "ExtractorError" ∈ blockedErrorTypes ∧
    hasSubstr "429".toList "HTTP Error 500 then 429".toList = true ∧
    is_blocked_error "ExtractorError" "HTTP Error 500 then 429" = true :=
  ⟨by decide, by decide,
    blocked_429_for_extractor_types "ExtractorError" "HTTP Error 500 then 429"
      (by decide) (by decide)⟩

/-! ## Fetch pipeline data model (src/core/yt_dlp_fetcher.py, src/utils/utils.py)

A format dictionary from the extraction library.  Field value `none` models a
key that is absent or stored as Python `None`: for the codec checks both
behave identically (`get(k, 'none')` yields the string `"none"` when absent,
which fails `!= 'none'`, and `None` when stored, which fails truthiness). -/

structure Format where
  format_note : Option String
  vcodec : Option String
  acodec : Option String
  format_id : Option String
  fps : Option String
  ext : Option String
  video_ext : Option String
  audio_ext : Option String
  resolution : Option String
  format : Option String
deriving DecidableEq

/-- The projected format dictionary built in the fetch loop
(yt_dlp_fetcher.py lines 99-115). -/
structure CleanFormat where
  vcodec : String
  acodec : String
  format_id : String
  fps : String
  ext : String
  video_ext : String
  audio_ext : String
  resolution : String
  format : String
deriving DecidableEq

/-- A thumbnail dictionary (only the fields the code reads). -/
structure Thumb where
  url : Option String
  preference : Option Int
deriving DecidableEq

/-- The metadata record returned by `ydl.extract_info`.  `chapters` is kept
opaque (the code copies it through unchanged); `duration` is an integer
number of seconds as reported by the library. -/
structure Info where
  webpage_url : Option String
  age_limit : Option Int
  chapters : Option String
  formats : List Format
  thumbnails : List Thumb
  duration : Option Int

/-- Python truthiness-plus-`!= 'none'` check applied to a codec field
(yt_dlp_fetcher.py line 105): the stored `fmt.get(_, 'none')` value passes
iff the key holds a non-empty string other than "none". -/
def truthyNonNone (v : Option String) : Bool :=
  match v with
  | some s => s != "" && s != "none"
  | none => false

/-- The field projection applied to a format that passes the filter
(yt_dlp_fetcher.py lines 101-113). -/
def cleanOf (fmt : Format) : CleanFormat :=
  { vcodec := fmt.vcodec.getD "none"
    acodec := fmt.acodec.getD "none"
    format_id := fmt.format_id.getD "none"
    fps := fmt.fps.getD "none"
    ext := fmt.ext.getD "none"
    video_ext := fmt.video_ext.getD "none"
    audio_ext := fmt.audio_ext.getD "none"
    resolution := fmt.resolution.getD "none"
    format := fmt.format.getD "none" }

/-- The format-filtering loop (yt_dlp_fetcher.py lines 92-115): skip
storyboard formats, keep only formats with both a video and an audio codec,
projecting each kept format. -/
def full_video_formats : List Format → List CleanFormat
  | [] => []
  | fmt :: rest =>
    if fmt.format_note.getD "" == "storyboard" then
      full_video_formats rest
    else if truthyNonNone fmt.vcodec && truthyNonNone fmt.acodec then
      cleanOf fmt :: full_video_formats rest
    else
      full_video_formats rest

/-- The combined filter predicate, for stating the projection claim. -/
def formatPasses (fmt : Format) : Bool :=
  !(fmt.format_note.getD "" == "storyboard") &&
    truthyNonNone fmt.vcodec && truthyNonNone fmt.acodec

/-- Python's `l[-2:]` : the trailing at-most-2 elements of a list. -/
def lastTwo {α : Type} (l : List α) : List α := l.drop (l.length - 2)

/-- The caption-fetch environment: whether the `ydl.download` call raises
(the exception is swallowed by the `try/except pass` in
`_download_subtitles_via_api`), which per-language subtitle files exist in
the temp directory afterwards (already parsed to text, as
`_parse_json3_to_text` would), and whether the silent logger saw a 429. -/
structure SubsWorld where
  downloadRaises : Bool
  found : String → Option (List Char)
  saw429 : Bool

/-- The fixed temp directory used by `_download_subtitles_via_api`
(utils.py line 61). -/
def subsTmpdir : String := "_yt_dlp/.tmp"

/-- The per-language file scan of `_download_subtitles_via_api`
(utils.py lines 114-120): collect parsed text for each language that has a
matching file. -/
def collectFound (world : SubsWorld) (langs : List String) :
    List (String × List Char) :=
  langs.foldl (fun acc lang =>
    match world.found lang with
    | some t => acc ++ [(lang, t)]
    | none => acc) []

/-- `_download_subtitles_via_api` (utils.py lines 53-122): any exception
from the download call is swallowed, so the function always returns the
language→text map scanned from the temp directory, the temp directory path,
and the saw-429 flag.  (Elapsed wall time is not modelled.) -/
def _download_subtitles_via_api (world : SubsWorld) (url : String)
    (languages : List String) (manual : Bool) (cookies_file : Option String) :
    List (String × List Char) × String × Bool :=
  (collectFound world languages, subsTmpdir, world.saw429)

/-- `_cleanup_paths` (utils.py lines 37-51): removes each non-falsy path,
ignoring errors; modelled as the list of paths actually removed. -/
def _cleanup_paths (paths : List String) : List String :=
  paths.filter (fun p => p != "")

/-- The languages requested for automatic captions
(yt_dlp_fetcher.py line 59). -/
def languages : List String := ["en", "ru"]

/-- The caption-selection loop (yt_dlp_fetcher.py lines 67-76): for each
language, the entry is added iff the auto map holds a non-empty text. -/
def collectCaptions (auto_map : List (String × List Char))
    (langs : List String) : List (String × List Char) :=
  langs.foldl (fun acc lang =>
    match auto_map.lookup lang with
    | some t => if t != [] then acc ++ [(lang, t)] else acc
    | none => acc) []

/-- The persisted result dictionary for one video
(yt_dlp_fetcher.py lines 50-129, minus the timing diagnostics). -/
structure VideoRecord where
  webpage_url : Option String
  age_limit : Option Int
  subtitles : List (String × List Char)
  automatic_captions : List (String × List Char)
  chapters : Option String
  formats : List CleanFormat
  thumbnails_ytdlp : List Thumb
  duration_seconds : Option Int
deriving DecidableEq

/-- The success branch of the fetch loop (yt_dlp_fetcher.py lines 45-132):
projection of the metadata record, the single caption attempt, and the
cleanup of the caption temp directory.  Returns the record together with the
list of paths cleaned up. -/
def buildRecord (info : Info) (world : SubsWorld)
    (cookie_file : Option String) : VideoRecord × List String :=
  let dl := _download_subtitles_via_api world
    (info.webpage_url.getD "") languages false cookie_file
  let auto_map := dl.1
  let tmpdir_auto := dl.2.1
  let automatic_captions := collectCaptions auto_map languages
  let cleaned := _cleanup_paths [tmpdir_auto]
  ({ webpage_url := info.webpage_url
     age_limit := info.age_limit
     subtitles := []
     automatic_captions := automatic_captions
     chapters := info.chapters
     formats := lastTwo (full_video_formats info.formats)
     thumbnails_ytdlp :=
       info.thumbnails.filter (fun t => t.preference == some (-1))
     duration_seconds :=
       match info.duration with
       | some d => if d == 0 then none else some d
       | none => none },
   cleaned)

/-- What one primary `extract_info` call does on a given attempt: returns a
record (with the caption environment observed afterwards), returns nothing,
or raises an exception with a type name and a message. -/
inductive ExtractOutcome where
  | success (info : Info) (subs : SubsWorld)
  | noInfo
  | raised (errType : String) (msg : String)

/-- The outcome of `fetch_from_ytdlp`: the returned record (empty = `none`),
the cookie manager afterwards, the paths cleaned up, and how many attempts
ran. -/
structure FetchResult where
  result : Option VideoRecord
  manager : CookieRotationManager
  cleaned : List String
  attemptsUsed : Nat

/-- The unavailability indicators (yt_dlp_fetcher.py lines 139-150). -/
def unavailableIndicators : List (List Char) :=
  ["video unavailable", "this video is no longer available",
   "copyright claim", "copyright", "unavailable", "private video",
   "this video is private", "video is private", "not available",
   "blocked in your country"].map String.toList

/-- The timeout indicators (yt_dlp_fetcher.py lines 156-158). -/
def timeoutIndicators : List (List Char) :=
  ["timeout", "timed out", "connection timed out",
   "socket timeout"].map String.toList

/-- `is_unavailable` (yt_dlp_fetcher.py line 139). -/
def isUnavailableMsg (s : List Char) : Bool :=
  unavailableIndicators.any (fun ind => hasSubstr ind s)

/-- `is_timeout` (yt_dlp_fetcher.py line 156). -/
def isTimeoutMsg (s : List Char) : Bool :=
  timeoutIndicators.any (fun ind => hasSubstr ind s)

/-- `max_attempts` (yt_dlp_fetcher.py line 22): one attempt per cookie,
minimum 1 (both branches of the Python conditional equal `max 1 len`). -/
def max_attempts (m : CookieRotationManager) : Nat :=
  max 1 m.cookie_files.length

/-- The attempt loop of `fetch_from_ytdlp` (yt_dlp_fetcher.py lines 24-176),
replayed against a list of per-attempt extraction outcomes.  On an
exception: the unavailable check first (immediate empty return), then
timeout/blocked, which rotate and continue only when attempts remain and a
next cookie exists; anything else returns empty from this attempt. -/
def fetchGo (m : CookieRotationManager) (attempt maxAttempts : Nat) :
    List ExtractOutcome → FetchResult
  | [] => { result := none, manager := m, cleaned := [], attemptsUsed := 0 }
  | o :: rest =>
    match o with
    | .noInfo =>
      { result := none, manager := m, cleaned := [], attemptsUsed := 1 }
    | .success info subs =>
      let r := buildRecord info subs (get_current_cookie m)
      { result := some r.1, manager := m, cleaned := r.2, attemptsUsed := 1 }
    | .raised errType msg =>
      let error_str := lowerChars msg
      if isUnavailableMsg error_str then
        { result := none, manager := m, cleaned := [], attemptsUsed := 1 }
      else
        let is_timeout := isTimeoutMsg error_str
        let is_blocked := is_blocked_error errType msg
        if (is_timeout || is_blocked) && decide (attempt < maxAttempts - 1) then
          match rotate_to_next m with
          | (some _, m2) =>
            let r := fetchGo m2 (attempt + 1) maxAttempts rest
            { result := r.result, manager := r.manager,
              cleaned := r.cleaned, attemptsUsed := r.attemptsUsed + 1 }
          | (none, m2) =>
            { result := none, manager := m2, cleaned := [], attemptsUsed := 1 }
        else
          { result := none, manager := m, cleaned := [], attemptsUsed := 1 }

/-- `fetch_from_ytdlp` (yt_dlp_fetcher.py line 11): run the attempt loop
from attempt 0 with `max_attempts` derived from the cookie manager. -/
def fetch_from_ytdlp (m : CookieRotationManager)
    (outcomes : List ExtractOutcome) : FetchResult :=
  fetchGo m 0 (max_attempts m) outcomes

/-! ## Claim theorems: C2 and C3 -/

/-- C2: an exception whose lowercased message contains an unavailability
indicator makes the fetch loop return the empty result immediately, with no
rotation (manager unchanged) and no further attempt (one attempt used,
independent of the remaining oracle), at any attempt number — the
unavailable check is evaluated before the timeout and blocked checks, so
this holds even when the message also contains a timeout or blocking
keyword. -/
theorem unavailable_short_circuits (m : CookieRotationManager)
    (attempt maxAttempts : Nat) (errType msg : String)
    (rest : List ExtractOutcome)
    (h : isUnavailableMsg (lowerChars msg) = true) :
    fetchGo m attempt maxAttempts (.raised errType msg :: rest) =
      { result := none, manager := m, cleaned := [], attemptsUsed := 1 } := by
  simp [fetchGo, h]

/-- Witness for C2: a message that is both unavailable and blocking ("403")
returns empty with the manager untouched, with further outcomes pending. -/
theorem unavailable_short_circuits_witness :
    isUnavailableMsg (lowerChars "Video unavailable. HTTP Error 403") = true ∧
    fetchGo ⟨["a.txt", "b.txt"], 0⟩ 0 2
        (.raised "DownloadError" "Video unavailable. HTTP Error 403" ::
          [.noInfo]) =
      { result := none, manager := ⟨["a.txt", "b.txt"], 0⟩, cleaned := [],
        attemptsUsed := 1 } :=
  ⟨by decide,
    unavailable_short_circuits ⟨["a.txt", "b.txt"], 0⟩ 0 2 "DownloadError"
      "Video unavailable. HTTP Error 403" [.noInfo] (by decide)⟩

/-- C3: an exception classified as neither unavailable nor timeout nor
blocked ("other") makes the fetch loop return the empty result from that
attempt without rotating the credential, at any attempt number — in
particular also when attempts remain. -/
theorem other_error_no_retry (m : CookieRotationManager)
    (attempt maxAttempts : Nat) (errType msg : String)
    (rest : List ExtractOutcome)
    (h1 : isUnavailableMsg (lowerChars msg) = false)
    (h2 : isTimeoutMsg (lowerChars msg) = false)
    (h3 : is_blocked_error errType msg = false) :
    fetchGo m attempt maxAttempts (.raised errType msg :: rest) =
      { result := none, manager := m, cleaned := [], attemptsUsed := 1 } := by
  simp [fetchGo, h1, h2, h3]

/-- Witness for C3: an unrecognized error on attempt 0 of 3 (attempts
remain) still returns empty without rotating. -/
theorem other_error_no_retry_witness :
    isUnavailableMsg (lowerChars "something strange happened") = false ∧
    isTimeoutMsg (lowerChars "something strange happened") = false ∧
    is_blocked_error "ValueError" "something strange happened" = false ∧
    fetchGo ⟨["a.txt", "b.txt", "c.txt"], 0⟩ 0 3
        (.raised "ValueError" "something strange happened" :: [.noInfo]) =
      { result := none, manager := ⟨["a.txt", "b.txt", "c.txt"], 0⟩,
        cleaned := [], attemptsUsed := 1 } :=
  ⟨by decide, by decide, by decide,
    other_error_no_retry ⟨["a.txt", "b.txt", "c.txt"], 0⟩ 0 3 "ValueError"
      "something strange happened" [.noInfo] (by decide) (by decide)
      (by decide)⟩

/-! ## Claim theorems: C5, C6, C7 -/

lemma lookup_append_none {α β : Type} [BEq α] (l1 l2 : List (α × β)) (a : α)
    (h1 : l1.lookup a = none) (h2 : l2.lookup a = none) :
    (l1 ++ l2).lookup a = none := by
  induction l1 with
  | nil => simpa using h2
  | cons p t ih =>
    rw [List.cons_append]
    cases p with
    | mk k v =>
      rw [List.lookup_cons] at h1 ⊢
      cases hk : (a == k) with
      | false => simp only [hk] at h1 ⊢; exact ih h1
      | true => simp only [hk] at h1 ⊢; exact h1

lemma collectFound_lookup_none (world : SubsWorld) (lang : String)
    (h : world.found lang = none) (langs : List String) :
    ∀ acc : List (String × List Char), acc.lookup lang = none →
      (langs.foldl (fun acc l =>
        match world.found l with
        | some t => acc ++ [(l, t)]
        | none => acc) acc).lookup lang = none := by
  induction langs with
  | nil => intro acc hacc; simpa using hacc
  | cons l ls ih =>
    intro acc hacc
    rw [List.foldl_cons]
    apply ih
    cases hf : world.found l with
    | none => simpa using hacc
    | some t =>
      simp only [hf]
      apply lookup_append_none _ _ _ hacc
      rw [List.lookup_cons]
      cases hk : (lang == l) with
      | false => simp
      | true =>
        exfalso
        have : lang = l := by simpa using hk
        rw [this, hf] at h
        exact Option.noConfusion h

lemma collectCaptions_lookup_none (auto_map : List (String × List Char))
    (lang : String) (h : auto_map.lookup lang = none) (langs : List String) :
    ∀ acc : List (String × List Char), acc.lookup lang = none →
      (langs.foldl (fun acc l =>
        match auto_map.lookup l with
        | some t => if t != [] then acc ++ [(l, t)] else acc
        | none => acc) acc).lookup lang = none := by
  induction langs with
  | nil => intro acc hacc; simpa using hacc
  | cons l ls ih =>
    intro acc hacc
    rw [List.foldl_cons]
    apply ih
    cases hf : auto_map.lookup l with
    | none => simpa using hacc
    | some t =>
      simp only [hf]
      cases ht : (t != []) with
      | false => simpa using hacc
      | true =>
        simp only [ht, if_true]
        apply lookup_append_none _ _ _ hacc
        rw [List.lookup_cons]
        cases hk : (lang == l) with
        | false => simp
        | true =>
          exfalso
          have : lang = l := by simpa using hk
          rw [this, hf] at h
          exact Option.noConfusion h

/-- C5: when the primary extraction succeeds, the video is never aborted by
the caption sub-call — the fetch returns a record for every caption
environment, including one where the caption download raises (the helper
swallows the exception) — the caption temp directory is always cleaned up,
and a language whose caption file is missing simply has no entry in
`automatic_captions`. -/
theorem caption_failure_degrades (m : CookieRotationManager)
    (attempt maxAttempts : Nat) (info : Info) (world : SubsWorld)
    (rest : List ExtractOutcome) (lang : String)
    (h : world.found lang = none) :
    (fetchGo m attempt maxAttempts
        (.success info world :: rest)).result.isSome = true ∧
    (fetchGo m attempt maxAttempts
        (.success info world :: rest)).cleaned = [subsTmpdir] ∧
    (buildRecord info world
        (get_current_cookie m)).1.automatic_captions.lookup lang = none := by
  refine ⟨?_, ?_, ?_⟩
  · simp [fetchGo]
  · simp [fetchGo, buildRecord, _download_subtitles_via_api, _cleanup_paths,
      subsTmpdir]
  · show (collectCaptions (collectFound world languages) languages).lookup
      lang = none
    have hmap : (collectFound world languages).lookup lang = none :=
      collectFound_lookup_none world lang h languages [] rfl
    exact collectCaptions_lookup_none _ lang hmap languages [] rfl

/-- Witness for C5: a raising caption environment with no files found still
yields a record, cleans the temp directory, and leaves "en" absent. -/
theorem caption_failure_degrades_witness :
    (fetchGo ⟨["a.txt"], 0⟩ 0 1
        (.success ⟨none, none, none, [], [], none⟩
          ⟨true, fun _ => none, false⟩ :: [])).result.isSome = true ∧
    (fetchGo ⟨["a.txt"], 0⟩ 0 1
        (.success ⟨none, none, none, [], [], none⟩
          ⟨true, fun _ => none, false⟩ :: [])).cleaned = [subsTmpdir] ∧
    (buildRecord ⟨none, none, none, [], [], none⟩ ⟨true, fun _ => none, false⟩
        (get_current_cookie ⟨["a.txt"], 0⟩)).1.automatic_captions.lookup
      "en" = none :=
  caption_failure_degrades ⟨["a.txt"], 0⟩ 0 1 ⟨none, none, none, [], [], none⟩
    ⟨true, fun _ => none, false⟩ [] "en" rfl

lemma full_video_formats_eq_filter_map (fl : List Format) :
    full_video_formats fl = (fl.filter formatPasses).map cleanOf := by
  induction fl with
  | nil => rfl
  | cons fmt rest ih =>
    by_cases hsb : (fmt.format_note.getD "" == "storyboard") = true
    · have hp : formatPasses fmt = false := by
        simp [formatPasses, hsb]
      rw [full_video_formats, if_pos hsb, List.filter_cons, hp]
      simpa using ih
    · have hsb2 : (fmt.format_note.getD "" == "storyboard") = false := by
        simpa using hsb
      by_cases hc : (truthyNonNone fmt.vcodec && truthyNonNone fmt.acodec)
          = true
      · have hp : formatPasses fmt = true := by
          simp only [formatPasses, hsb2, Bool.not_false, Bool.true_and]
          exact hc
        rw [full_video_formats, if_neg (by simp [hsb2]), if_pos hc,
          List.filter_cons, hp, ih]
        simp
      · have hc2 : (truthyNonNone fmt.vcodec && truthyNonNone fmt.acodec)
            = false := by simpa using hc
        have hp : formatPasses fmt = false := by
          simp only [formatPasses, hsb2, Bool.not_false, Bool.true_and]
          exact hc2
        rw [full_video_formats, if_neg (by simp [hsb2]), if_neg (by simp [hc2]),
          List.filter_cons, hp]
        simpa using ih

/-- C6: the persisted `formats` field is exactly the trailing at-most-2
projected elements, in original relative order, of the sublist of the input
formats that pass the audio+video filter and are not storyboards — a suffix
of the filtered list, never a reordering or a quality-based selection. -/
theorem formats_suffix_of_filtered (info : Info) (world : SubsWorld)
    (cookie_file : Option String) :
    (buildRecord info world cookie_file).1.formats =
      lastTwo ((info.formats.filter formatPasses).map cleanOf) ∧
    (buildRecord info world cookie_file).1.formats <:+
      ((info.formats.filter formatPasses).map cleanOf) ∧
    (buildRecord info world cookie_file).1.formats.length ≤ 2 := by
  have hfield : (buildRecord info world cookie_file).1.formats =
      lastTwo (full_video_formats info.formats) := rfl
  rw [hfield, full_video_formats_eq_filter_map]
  refine ⟨rfl, ?_, ?_⟩
  · exact List.drop_suffix _ _
  · rw [lastTwo, List.length_drop]
    omega

lemma insert_length_le {α : Type} [DecidableEq α] (shard : List α) (vid : α) :
    (if vid ∈ shard then shard else shard ++ [vid]).length ≤
      shard.length + 1 := by
  by_cases h : vid ∈ shard
  · rw [if_pos h]; omega
  · rw [if_neg h, List.length_append]; simp

/-- C7 as stated is false: a known duration of 0 seconds is dropped by the
Python truthiness check `if duration:`, so `duration_seconds` is omitted
even though the duration is present in the metadata record. -/
theorem duration_zero_counterexample :
    (⟨none, none, none, [], [], some 0⟩ : Info).duration = some 0 ∧
    (buildRecord ⟨none, none, none, [], [], some 0⟩
        ⟨false, fun _ => none, false⟩ none).1.duration_seconds = none :=
  ⟨rfl, rfl⟩

/-- C7 amended: the persisted record carries `duration_seconds = v` exactly
when the metadata record's duration is present with the nonzero value `v`
(a present-but-zero duration is omitted by the truthiness check); when
present it equals the reported integer duration unchanged. -/
theorem duration_present_iff (info : Info) (world : SubsWorld)
    (cookie_file : Option String) (v : Int) :
    (buildRecord info world cookie_file).1.duration_seconds = some v ↔
      info.duration = some v ∧ v ≠ 0 := by
  have hfield : (buildRecord info world cookie_file).1.duration_seconds =
      match info.duration with
      | some d => if d == 0 then none else some d
      | none => none := rfl
  rw [hfield]
  cases hd : info.duration with
  | none => simp
  | some d =>
    show (if (d == 0) = true then none else some d) = some v ↔
      some d = some v ∧ v ≠ 0
    constructor
    · intro h
      by_cases hz : d = 0
      · rw [if_pos (by simp [hz])] at h
        exact absurd h (by simp)
      · rw [if_neg (by simp [hz])] at h
        exact ⟨h, by rw [← Option.some.inj h]; exact hz⟩
    · rintro ⟨h1, h2⟩
      have hv := Option.some.inj h1
      have hz : d ≠ 0 := by rw [hv]; exact h2
      rw [if_neg (by simp [hz])]
      exact congrArg some hv

/-! ## Batch processor (src/main_yt_dlp.py)

Wall-clock timestamps are modelled as `Int` seconds; the module-global
last-upload markers `lcpt` / `lcdt` as `Option Int` (`None` before the first
save, matching Python falsiness of `None`). -/

/-- Observable effect of one save call: whether the local file was written,
whether the remote upload ran, and the last-upload marker afterwards. -/
structure SaveOutcome where
  wroteLocal : Bool
  uploaded : Bool
  stamp : Option Int
deriving DecidableEq

/-- The upload gate of `save_progress` (main_yt_dlp.py lines 87-125): the
payload is always written locally; the upload runs only when a previous
timestamp exists and strictly more than 150 seconds have elapsed, in which
case the timestamp is refreshed; a first save only initializes the
timestamp. -/
def save_progress_upload (lcpt : Option Int) (t : Int) : SaveOutcome :=
  match lcpt with
  | some prev =>
    if t - prev > 150 then ⟨true, true, some t⟩ else ⟨true, false, some prev⟩
  | none => ⟨true, false, some t⟩

/-- The upload gate of `save_data_file` (main_yt_dlp.py lines 232-274),
identical in structure to `save_progress` but keyed on `lcdt`. -/
def save_data_file_upload (lcdt : Option Int) (t : Int) : SaveOutcome :=
  match lcdt with
  | some prev =>
    if t - prev > 150 then ⟨true, true, some t⟩ else ⟨true, false, some prev⟩
  | none => ⟨true, false, some t⟩

/-- `DATA_FILE_SIZE` (main_yt_dlp.py line 29). -/
def DATA_FILE_SIZE : Nat := 500

/-- Adding one fetched video to the active shard's mapping
(main_yt_dlp.py line 311): dict assignment, so an already-present key is
overwritten without growing the count.  Video identifiers are kept abstract
(`α`). -/
def insertShard {α : Type} [DecidableEq α] (shard : List α) (vid : α) :
    List α :=
  if vid ∈ shard then shard else shard ++ [vid]

/-- `get_next_data_file_path` followed by `load_data_file`
(main_yt_dlp.py lines 151-229), as seen through the shard's video-key set:
when the remote store's most recent shard exists and holds fewer than
`DATA_FILE_SIZE` videos it is reused as the active shard; otherwise (no
remote shard, a full one — which is uploaded and evicted —, or a download
failure) a fresh file is created, holding only `_metadata`, i.e. zero video
entries. -/
def get_next_data_file {α : Type} (remote : Option (List α)) : List α :=
  match remote with
  | some content => if content.length < DATA_FILE_SIZE then content else []
  | none => []

/-- The shard management of the `process_videos` loop
(main_yt_dlp.py lines 299-351): per video, add its record to the active
shard when the fetch returned data, then if the video count reached
`DATA_FILE_SIZE`, flush and switch to the next data file (consuming one
remote-store observation).  Returns the final active shard and the trace of
per-iteration video counts measured at the size check (line 340), the peak
point of each iteration.  Progress-set updates and the time-gated saves do
not alter the shard mapping and are modelled separately. -/
def process_videos {α : Type} [DecidableEq α] :
    List (α × Bool) → List (Option (List α)) → List α → List α × List Nat
  | [], _, shard => (shard, [])
  | (vid, got) :: rest, remotes, shard =>
    let shard1 := if got then insertShard shard vid else shard
    let cnt := shard1.length
    if DATA_FILE_SIZE ≤ cnt then
      let shard2 := get_next_data_file (remotes.headD none)
      let r := process_videos rest remotes.tail shard2
      (r.1, cnt :: r.2)
    else
      let r := process_videos rest remotes shard1
      (r.1, cnt :: r.2)

/-- The progress payload built by `save_progress`
(main_yt_dlp.py lines 97-100): the processed-id set serialized as a sorted
list plus its cardinality. -/
structure ProgressPayload where
  processed_video_ids : List String
  count : Nat

/-- `payload = {"processed_video_ids": sorted(list(s)), "count": len(s)}`. -/
def progressPayload (processed : Finset String) : ProgressPayload :=
  { processed_video_ids := processed.sort (· ≤ ·)
    count := processed.card }

/-! ## Claim theorems: C4, C8, C10 -/

/-- C4 as stated ("at least 150 seconds") is false at the boundary: with a
prior timestamp exactly 150 seconds old, the code's strict comparison
`t - lcpt > 150` suppresses the upload. -/
theorem upload_gate_boundary_counterexample :
    (150 : Int) - 0 ≥ 150 ∧
    (save_progress_upload (some 0) 150).uploaded = false ∧
    (save_data_file_upload (some 0) 150).uploaded = false := by
  decide

/-- C4 amended: for both artifacts every save writes the file locally, and
the remote upload is performed if and only if a prior last-upload timestamp
exists and strictly more than 150 seconds have elapsed since it; when no
prior timestamp exists, the save initializes the timestamp without
uploading. -/
theorem upload_gate_iff (lcpt : Option Int) (t prev : Int) :
    (save_progress_upload lcpt t).wroteLocal = true ∧
    (save_data_file_upload lcpt t).wroteLocal = true ∧
    ((save_progress_upload (some prev) t).uploaded = true ↔ t - prev > 150) ∧
    ((save_data_file_upload (some prev) t).uploaded = true ↔ t - prev > 150) ∧
    (save_progress_upload none t).uploaded = false ∧
    (save_progress_upload none t).stamp = some t ∧
    (save_data_file_upload none t).uploaded = false ∧
    (save_data_file_upload none t).stamp = some t := by
  refine ⟨?_, ?_, ?_, ?_, rfl, rfl, rfl, rfl⟩
  · cases lcpt with
    | none => rfl
    | some p =>
      simp only [save_progress_upload]
      split <;> rfl
  · cases lcpt with
    | none => rfl
    | some p =>
      simp only [save_data_file_upload]
      split <;> rfl
  · simp only [save_progress_upload]
    split <;> simp_all
  · simp only [save_data_file_upload]
    split <;> simp_all

set_option maxRecDepth 100000 in
/-- C8's rollover clause is false: when the shard reaches the 500 bound and
the most recent remote shard holds fewer than 500 entries, that shard is
reused as the new active shard, so the new shard does not start empty apart
from `_metadata` — here it starts with one video entry. -/
theorem shard_rollover_not_fresh_counterexample :
    (process_videos [((1000 : Nat), true)] [some [7]]
      (List.range 499)).1 = [7] ∧
    ((process_videos [((1000 : Nat), true)] [some [7]]
      (List.range 499)).1).length ≠ 0 := by
  have h1 : (process_videos [((1000 : Nat), true)] [some [7]]
      (List.range 499)).1 = [7] := by decide
  exact ⟨h1, by rw [h1]; decide⟩

lemma get_next_data_file_lt {α : Type} (remote : Option (List α)) :
    (get_next_data_file remote).length < DATA_FILE_SIZE := by
  cases remote with
  | none => simp [get_next_data_file, DATA_FILE_SIZE]
  | some content =>
    simp only [get_next_data_file]
    split
    · assumption
    · simp [DATA_FILE_SIZE]

lemma process_videos_bound {α : Type} [DecidableEq α] :
    ∀ (items : List (α × Bool)) (remotes : List (Option (List α)))
      (shard : List α), shard.length < DATA_FILE_SIZE →
      (∀ c ∈ (process_videos items remotes shard).2, c ≤ DATA_FILE_SIZE) ∧
      (process_videos items remotes shard).1.length < DATA_FILE_SIZE := by
  intro items
  induction items with
  | nil =>
    intro remotes shard h
    refine ⟨?_, ?_⟩
    · intro c hc
      simp [process_videos] at hc
    · simpa [process_videos] using h
  | cons item rest ih =>
    intro remotes shard h
    obtain ⟨vid, got⟩ := item
    have hstep : (if got then insertShard shard vid else shard).length ≤
        shard.length + 1 := by
      cases got with
      | true => simpa using insert_length_le shard vid
      | false => simp
    by_cases hfull :
        DATA_FILE_SIZE ≤ (if got then insertShard shard vid else shard).length
    · have ihx := ih remotes.tail (get_next_data_file (remotes.headD none))
        (get_next_data_file_lt (remotes.headD none))
      refine ⟨?_, ?_⟩
      · intro c hc
        simp only [process_videos, if_pos hfull] at hc
        simp only [List.mem_cons] at hc
        rcases hc with rfl | hc
        · omega
        · exact ihx.1 c hc
      · simp only [process_videos, if_pos hfull]
        exact ihx.2
    · have hlt : (if got then insertShard shard vid else shard).length <
          DATA_FILE_SIZE := by omega
      have ihx := ih remotes (if got then insertShard shard vid else shard) hlt
      refine ⟨?_, ?_⟩
      · intro c hc
        simp only [process_videos, if_neg hfull] at hc
        simp only [List.mem_cons] at hc
        rcases hc with rfl | hc
        · omega
        · exact ihx.1 c hc
      · simp only [process_videos, if_neg hfull]
        exact ihx.2

/-- C8 amended: starting from an active shard with fewer than 500 video
entries (as `get_next_data_file` guarantees), at every size check in the
batch loop the shard holds at most 500 video entries (`_metadata` excluded),
the loop ends with an active shard below the bound, and every newly opened
shard holds fewer than 500 entries — empty apart from `_metadata` only when
a fresh file is created rather than a partial remote shard being reused. -/
theorem shard_bound_invariant {α : Type} [DecidableEq α]
    (items : List (α × Bool)) (remotes : List (Option (List α)))
    (shard : List α) (h : shard.length < DATA_FILE_SIZE) :
    (∀ c ∈ (process_videos items remotes shard).2, c ≤ DATA_FILE_SIZE) ∧
    (process_videos items remotes shard).1.length < DATA_FILE_SIZE ∧
    ∀ remote : Option (List α),
      (get_next_data_file remote).length < DATA_FILE_SIZE := by
  refine ⟨(process_videos_bound items remotes shard h).1,
    (process_videos_bound items remotes shard h).2, ?_⟩
  intro remote
  exact get_next_data_file_lt remote

/-- Witness for the amended C8: a two-video run from an empty shard keeps
every observed count within the bound and ends below it. -/
theorem shard_bound_invariant_witness :
    ([] : List Nat).length < DATA_FILE_SIZE ∧
    ((∀ c ∈ (process_videos [((5 : Nat), true), (6, true)] []
        ([] : List Nat)).2, c ≤ DATA_FILE_SIZE) ∧
      (process_videos [((5 : Nat), true), (6, true)] []
        ([] : List Nat)).1.length < DATA_FILE_SIZE ∧
      ∀ remote : Option (List Nat),
        (get_next_data_file remote).length < DATA_FILE_SIZE) :=
  ⟨by decide,
    shard_bound_invariant [((5 : Nat), true), (6, true)] [] [] (by decide)⟩

/-- C10: every progress payload has its processed-id list sorted in strictly
ascending order, free of duplicates, and its count field equal to the length
of that list. -/
theorem progress_payload_invariants (processed : Finset String) :
    List.Sorted (· < ·) (progressPayload processed).processed_video_ids ∧
    (progressPayload processed).processed_video_ids.Nodup ∧
    (progressPayload processed).count =
      (progressPayload processed).processed_video_ids.length := by
  refine ⟨Finset.sort_sorted_lt processed, Finset.sort_nodup _ processed, ?_⟩
  exact (Finset.length_sort _).symm

end YtDlp
